import Mathlib

set_option maxHeartbeats 1000000

/-
Verification development for the llm-scraper selector resolution engine and
HTML to Markdown converter.

The embedding mirrors, definition by definition:
  - src/llm_scraper/models/selector.py and models/selector_old.py
    (SelectorType, SelectorConfig items, ElementSelector, ParserConfig);
  - src/llm_scraper/parsers/base.py (BaseParser: _detect_selector_type,
    _extract_with_css, _extract_with_xpath, _find_parent_element,
    _extract_value_from_element, _extract_element, parse, _run_cleanup);
  - src/llm_scraper/models/converter.py (TAG_HELPER_MAP, MarkdownConverter,
    html_to_markdown) and models/html.py (tag helper classes).

The DOM trees handed to the engine by BeautifulSoup / lxml are modelled as a
small inductive tree; the CSS and XPath engines themselves are external
libraries (bs4 / soupsieve / lxml), modelled here on the fragment of the two
query languages that the development exercises: simple tag / class CSS
selectors and descendant-axis XPath expressions.  Strings outside that
fragment make the corresponding query parser fail, which models the
SelectorSyntaxError / XPathEvalError exceptions of the real engines.
-/

namespace LlmScraper

/-- An HTML DOM node.  Element nodes carry a numeric identity, modelling the
object identity of BeautifulSoup / lxml nodes, so that live references into a
shared, mutable tree can be distinguished from detached copies. -/
inductive HNode where
  | text (s : String)
  | elem (id : Nat) (tag : String) (attrs : List (String × String)) (children : List HNode)

/-- Attribute list of an element node (tag.attrs). -/
def attrsOf : HNode → List (String × String)
  | .text _ => []
  | .elem _ _ a _ => a

/-- Tag name of an element node. -/
def tagOf : HNode → Option String
  | .text _ => none
  | .elem _ t _ _ => some t

/-- Identity of an element node. -/
def elemId : HNode → Option Nat
  | .text _ => none
  | .elem i _ _ _ => some i

/-- element.get(name): the first attribute with the given name. -/
def lookupAttr (attrs : List (String × String)) (k : String) : Option String :=
  (attrs.find? (fun kv => kv.1 = k)).map (fun kv => kv.2)

/-- Characters of a string with surrounding whitespace removed. -/
def trimChars (cs : List Char) : List Char :=
  ((cs.dropWhile Char.isWhitespace).reverse.dropWhile Char.isWhitespace).reverse

/-- Python str.strip and Lean String.trim, implemented structurally so that
concrete instances reduce inside the kernel. -/
def strip (s : String) : String := String.mk (trimChars s.data)

/-- String.startsWith, implemented structurally. -/
def startsWithStr (s pre : String) : Bool := pre.data.isPrefixOf s.data

/-- Whether pat occurs as a contiguous sublist. -/
def occursIn : List Char → List Char → Bool
  | [], pat => pat.isEmpty
  | c :: cs, pat => pat.isPrefixOf (c :: cs) || occursIn cs pat

/-- The Python substring test `sub in s`, implemented structurally. -/
def containsSub (s sub : String) : Bool := occursIn s.data sub.data

/-- Replacement of every non-overlapping occurrence, left to right; the fuel
(initially the list length) only serves termination, every step consumes at
least one character for a non-empty pattern. -/
def replaceChars : Nat → List Char → List Char → List Char → List Char
  | _, [], _, _ => []
  | 0, cs, _, _ => cs
  | fuel + 1, c :: cs, pat, rep =>
    if pat.isPrefixOf (c :: cs) then
      rep ++ replaceChars fuel ((c :: cs).drop pat.length) pat rep
    else c :: replaceChars fuel cs pat rep

/-- String.replace and Python str.replace for the non-empty patterns used
here, implemented structurally. -/
def replaceStr (s pat rep : String) : String :=
  if pat.isEmpty then s
  else String.mk (replaceChars s.data.length s.data pat.data rep.data)

/-- Splits at the first occurrence of pat: the part before and the part
after. -/
def breakOn : List Char → List Char → Option (List Char × List Char)
  | [], _ => none
  | c :: cs, pat =>
    if pat.isPrefixOf (c :: cs) then some ([], (c :: cs).drop pat.length)
    else
      match breakOn cs pat with
      | some pr => some (c :: pr.1, pr.2)
      | none => none

/-- Splits at every occurrence of pat (fuel as in replaceChars). -/
def splitOnChars : Nat → List Char → List Char → List (List Char)
  | 0, cs, _ => [cs]
  | fuel + 1, cs, pat =>
    match breakOn cs pat with
    | none => [cs]
    | some pr => pr.1 :: splitOnChars fuel pr.2 pat

/-- String.splitOn for a non-empty pattern, implemented structurally. -/
def splitOnStr (s pat : String) : List String :=
  (splitOnChars (s.data.length + 1) s.data pat.data).map String.mk

/-- Splitting on whitespace characters, keeping empty pieces
(String.split Char.isWhitespace). -/
def splitWsChars : List Char → List Char → List String
  | [], acc => [String.mk acc.reverse]
  | c :: cs, acc =>
    if c.isWhitespace then String.mk acc.reverse :: splitWsChars cs []
    else splitWsChars cs (c :: acc)

/-- String wrapper of splitWsChars. -/
def splitWs (s : String) : List String := splitWsChars s.data []

/-- Python str.lower on the ascii range used here. -/
def toLowerStr (s : String) : String := String.mk (s.data.map Char.toLower)

mutual

/-- The node itself (when it is an element) followed by all its element
descendants, in document (preorder) order. -/
def selfAndDescendants : HNode → List HNode
  | .text _ => []
  | .elem i t a cs => .elem i t a cs :: selfAndDescendantsList cs

def selfAndDescendantsList : List HNode → List HNode
  | [] => []
  | c :: cs => selfAndDescendants c ++ selfAndDescendantsList cs

end

/-- All strict element descendants of a node, in document order. -/
def descendants : HNode → List HNode
  | .text _ => []
  | .elem _ _ _ cs => selfAndDescendantsList cs

mutual

/-- Finds the element with the given identity inside a tree (a live
BeautifulSoup / lxml reference dereferenced against the current tree). -/
def findById : HNode → Nat → Option HNode
  | .text _, _ => none
  | .elem i t a cs, j =>
    if i = j then some (.elem i t a cs) else findByIdList cs j

def findByIdList : List HNode → Nat → Option HNode
  | [], _ => none
  | c :: cs, j =>
    match findById c j with
    | some r => some r
    | none => findByIdList cs j

end

mutual

/-- Removes every element below the given node that satisfies p, together with
its whole subtree.  This models running a query over the subtree and calling
decompose / parent.remove on every hit: hits nested inside other hits are
destroyed anyway, and the root itself is never removed (select only returns
descendants; an lxml root has no parent). -/
def removeMatchingBy (p : HNode → Bool) : HNode → HNode
  | .text s => .text s
  | .elem i t a cs => .elem i t a (removeMatchingListBy p cs)

def removeMatchingListBy (p : HNode → Bool) : List HNode → List HNode
  | [] => []
  | c :: cs =>
    (if p c then [] else [removeMatchingBy p c]) ++ removeMatchingListBy p cs

end

mutual

/-- Rewrites the element with the given identity in place, modelling a
destructive operation performed through a live reference into a shared tree. -/
def modifyById (f : HNode → HNode) (targetId : Nat) : HNode → HNode
  | .text s => .text s
  | .elem i t a cs =>
    if i = targetId then f (.elem i t a cs)
    else .elem i t a (modifyByIdList f targetId cs)

def modifyByIdList (f : HNode → HNode) (targetId : Nat) : List HNode → List HNode
  | [] => []
  | c :: cs => modifyById f targetId c :: modifyByIdList f targetId cs

end

/-- Serialization of an attribute list. -/
def serializeAttrs : List (String × String) → String
  | [] => ""
  | (k, v) :: rest => " " ++ k ++ "=\"" ++ v ++ "\"" ++ serializeAttrs rest

mutual

/-- Outer-HTML serialization of a node: models both str(bs4_element) and
lxml etree.tostring(element, method=html) for the markup used here. -/
def serialize : HNode → String
  | .text s => s
  | .elem _ t attrs cs =>
    "<" ++ t ++ serializeAttrs attrs ++ ">" ++ serializeList cs ++ "</" ++ t ++ ">"

def serializeList : List HNode → String
  | [] => ""
  | c :: cs => serialize c ++ serializeList cs

end

mutual

/-- lxml element.text_content(): concatenation of every text node below the
element, in document order. -/
def textContent : HNode → String
  | .text s => s
  | .elem _ _ _ cs => textContentList cs

def textContentList : List HNode → String
  | [] => ""
  | c :: cs => textContent c ++ textContentList cs

end

mutual

/-- bs4 get_text(strip=True): each text node is stripped individually and the
stripped pieces are concatenated. -/
def getTextStripped : HNode → String
  | .text s => strip s
  | .elem _ _ _ cs => getTextStrippedList cs

def getTextStrippedList : List HNode → String
  | [] => ""
  | c :: cs => getTextStripped c ++ getTextStrippedList cs

end

/-- Characters allowed in the tag and class names of the modelled CSS
fragment and in the name tests of the modelled XPath fragment. -/
def isNameChar (c : Char) : Bool :=
  c.isAlphanum || c = '-' || c = '_'

/-- A CSS selector of the modelled fragment: an optional tag test and an
optional class test (tag, .cls, tag.cls). -/
structure CssSel where
  tag : Option String
  cls : Option String
deriving Repr, DecidableEq

/-- Parses the modelled CSS fragment.  Any other string (for example an XPath
expression handed to a CSS engine) fails, modelling the SelectorSyntaxError
raised by soupsieve inside soup.select / select_one. -/
def cssParse (q : String) : Except String CssSel :=
  let s := trimChars q.data
  if s.isEmpty then .error "empty selector"
  else if s.headD ' ' = '.' then
    let cls := s.drop 1
    if !cls.isEmpty && cls.all isNameChar then
      .ok ⟨none, some (String.mk cls)⟩
    else .error "invalid css selector"
  else
    let tg := s.takeWhile isNameChar
    let rest := s.dropWhile isNameChar
    if tg.isEmpty then .error "invalid css selector"
    else if rest.isEmpty then .ok ⟨some (String.mk tg), none⟩
    else if rest.headD ' ' = '.' && !(rest.drop 1).isEmpty && (rest.drop 1).all isNameChar then
      .ok ⟨some (String.mk tg), some (String.mk (rest.drop 1))⟩
    else .error "invalid css selector"

/-- The whitespace-separated tokens of the class attribute. -/
def classTokens (attrs : List (String × String)) : List String :=
  match lookupAttr attrs "class" with
  | none => []
  | some v => (splitWs v).filter (fun t => !t.isEmpty)

/-- Whether an element matches a CSS selector of the modelled fragment. -/
def cssMatches (sel : CssSel) (n : HNode) : Bool :=
  match n with
  | .text _ => false
  | .elem _ t attrs _ =>
    (match sel.tag with
     | none => true
     | some tg => t = tg) &&
    (match sel.cls with
     | none => true
     | some c => (classTokens attrs).contains c)

/-- soup.select / tag.select: every matching element descendant of the scope,
in document order (the scope itself is never returned). -/
def select (scope : HNode) (sel : CssSel) : List HNode :=
  (descendants scope).filter (cssMatches sel)

/-- soup.select_one: the first match of select, if any. -/
def selectOne (scope : HNode) (sel : CssSel) : Option HNode :=
  (select scope sel).head?

/-- An XPath expression of the modelled fragment: a single descendant-axis
name test, absolute (//tag) or relative (.//tag). -/
structure XPathSel where
  absolute : Bool
  tag : String
deriving Repr, DecidableEq

/-- Parses the modelled XPath fragment: "//tag" and ".//tag".  Any other
string (for example a CSS selector such as ".byline" handed to the XPath
engine) fails, modelling the XPathEvalError raised by lxml. -/
def xpathParse (q : String) : Except String XPathSel :=
  let s := trimChars q.data
  if ".//".data.isPrefixOf s then
    let name := s.drop 3
    if !name.isEmpty && name.all isNameChar then .ok ⟨false, String.mk name⟩
    else .error "invalid xpath"
  else if "//".data.isPrefixOf s then
    let name := s.drop 2
    if !name.isEmpty && name.all isNameChar then .ok ⟨true, String.mk name⟩
    else .error "invalid xpath"
  else .error "invalid xpath"

/-- Whether an element carries the given tag name. -/
def tagIs (tg : String) (n : HNode) : Bool :=
  match n with
  | .text _ => false
  | .elem _ t _ _ => t = tg

/-- Evaluation of the modelled XPath fragment: an absolute expression is
evaluated from the root of the whole tree no matter what the scope element is
(lxml semantics, and the very reason base.py rewrites queries under parent
scoping), a relative expression over the strict descendants of the scope
(the tree root when no scope element is given). -/
def xpathEval (tree : HNode) (scope : Option HNode) (sel : XPathSel) : List HNode :=
  if sel.absolute then
    (selfAndDescendants tree).filter (tagIs sel.tag)
  else
    match scope with
    | some sc => (descendants sc).filter (tagIs sel.tag)
    | none => (descendants tree).filter (tagIs sel.tag)

/-- models/selector_old.py SelectorType (the enum imported by parsers/base.py):
css, xpath or auto. -/
inductive SelectorType where
  | css
  | xpath
  | auto
deriving Repr, DecidableEq

/-- mirrors BaseParser._detect_selector_type: an explicit type is returned
unchanged; under auto a stripped query starting with // or / is XPath,
anything else CSS. -/
def detectSelectorType (query : String) (explicitType : SelectorType) : SelectorType :=
  if explicitType ≠ .auto then explicitType
  else if startsWithStr (strip query) "//" || startsWithStr (strip query) "/" then .xpath
  else .css

/-- Python truthiness of an optional string: None and "" are falsy. -/
def strTruthy : Option String → Bool
  | none => false
  | some s => !s.isEmpty

/-- Python `a or b` on optional strings (used for `specific_attribute or
selector.attribute` and similar). -/
def pyOr (a b : Option String) : Option String :=
  if strTruthy a then a else b

/-- Python `opt or default` collapsing an optional string to a string. -/
def pyOrStr (a : Option String) (b : String) : String :=
  if strTruthy a then a.getD "" else b

/-- The parser state: self.soup (the shared BeautifulSoup document, mutated
in place by decompose) and self.tree (the lxml mirror built once from the
serialized soup in BaseParser.__init__; None if that construction failed). -/
structure PState where
  soup : HNode
  tree : Option HNode

/-- One entry of a selector fallback list: a bare string or a selector config
object with query, selector_type, attribute and parent (the dict shape of
SelectorConfig in models/selector_old.py, as read by _extract_element). -/
inductive SelItem where
  | str (q : String)
  | dict (query : Option String) (selectorType : SelectorType)
      (attrName : Option String) (parent : Option String)

/-- ElementSelector.selector: a single string or a fallback list. -/
inductive SelectorVal where
  | one (q : String)
  | many (items : List SelItem)

/-- ElementSelector.type: Literal["text", "html", "attribute"]. -/
inductive ExtractType where
  | text
  | html
  | attr
deriving Repr, DecidableEq

/-- models ElementSelector (models/selector_old.py) as consumed by
parsers/base.py.  The cleanup field is read by BaseParser._extract_element
(per-field cleanup) although the pydantic models shipped under src do not
declare it; it is included here as the resolver code and the spec (FieldSpec
cleanup) require. -/
structure ElementSelector where
  selector : SelectorVal
  type : ExtractType := .text
  attrName : Option String := none
  all : Bool := false
  cleanup : List String := []

/-- mirrors BaseParser._extract_with_css.  soup.select / select_one raise on
an invalid selector string, so the result is an Except; the scope is the
parent element when given, the whole soup otherwise. -/
def extractWithCss (soup : HNode) (q : String) (parentEl : Option HNode)
    (findAll : Bool) : Except String (List HNode) := do
  let sel ← cssParse q
  let scope := parentEl.getD soup
  if findAll then pure (select scope sel)
  else
    match selectOne scope sel with
    | some e => pure [e]
    | none => pure []

/-- mirrors BaseParser._extract_with_xpath: no tree means no matches; the
query is parsed and evaluated inside a try / except that turns any failure
into zero matches; with find_all False only the first element is kept. -/
def extractWithXpath (tree : Option HNode) (q : String) (parentEl : Option HNode)
    (findAll : Bool) : List HNode :=
  match tree with
  | none => []
  | some t =>
    match xpathParse q with
    | .error _ => []
    | .ok sel =>
      let els := xpathEval t parentEl sel
      if !findAll && !els.isEmpty then els.take 1 else els

/-- mirrors BaseParser._find_parent_element: the type detector is run on the
parent query with the selector_type argument the caller passed in; the CSS
branch runs soup.select_one (which raises on an invalid selector, hence the
Except), the XPath branch runs _extract_with_xpath with find_all False
(which swallows query errors). -/
def findParentElement (st : PState) (parentQuery : String)
    (selectorType : SelectorType) : Except String (Option HNode) :=
  let detected := detectSelectorType parentQuery selectorType
  if detected = .css then do
    let sel ← cssParse parentQuery
    pure (selectOne st.soup sel)
  else
    match st.tree with
    | none => pure none
    | some _ => pure ((extractWithXpath st.tree parentQuery none false).head?)

/-- Models urllib.parse.urljoin on the simple shapes occurring here: an
absolute url is returned unchanged, a root-relative path is attached to the
scheme and host of the base, any other relative path replaces the last
segment of the base. -/
def urljoin (base rel : String) : String :=
  if (splitOnStr rel "://").length ≥ 2 then rel
  else if startsWithStr rel "/" then
    match splitOnStr base "://" with
    | [scheme, rest] => scheme ++ "://" ++ String.mk (rest.data.takeWhile (fun c => c ≠ '/')) ++ rel
    | _ => rel
  else
    let pre := (base.data.reverse.dropWhile (fun c => c ≠ '/')).reverse
    if pre.isEmpty then rel else String.mk pre ++ rel

/-- mirrors BaseParser._extract_value_from_element.  When a truthy attribute
name is supplied the attribute is extracted no matter what extract_type says,
with href values joined against base_url; a missing or empty attribute value
falls through to the final return None (no text or html fallback).  Without
an attribute, "html" serializes the element and anything else extracts text
(lxml: text_content().strip(); bs4: get_text(strip=True)). -/
def extractValueFromElement (baseUrl : Option String) (el : HNode)
    (attrName : Option String) (extractType : ExtractType) (isLxml : Bool) :
    Option String :=
  if strTruthy attrName then
    match lookupAttr (attrsOf el) (attrName.getD "") with
    | some v =>
      if !v.isEmpty then
        if attrName.getD "" = "href" && baseUrl.isSome then
          some (urljoin (baseUrl.getD "") v)
        else some v
      else none
    | none => none
  else if extractType = .html then
    some (serialize el)
  else if isLxml then
    some (strip (textContent el))
  else
    some (getTextStripped el)

/-- The working representation of one matched element inside
_extract_element: a BeautifulSoup node is a live reference into the shared
soup, an lxml node a live reference into self.tree, and a node obtained by
reparsing a serialized string is detached from both. -/
inductive WElem where
  | soupRef (id : Nat)
  | treeRef (id : Nat)
  | detached (n : HNode)

/-- Dereferences a working element against the current parser state. -/
def currentNode (st : PState) : WElem → Option HNode
  | .soupRef i => findById st.soup i
  | .treeRef i =>
    match st.tree with
    | some t => findById t i
    | none => none
  | .detached n => some n

/-- Models serializing an element and reparsing with BeautifulSoup(...)
followed by .find(): the lxml html parser wraps body content in html and
body containers, and .find() returns the first tag of the reparse (the html
wrapper).  Identities of the synthetic wrapper nodes are never dereferenced
because the result is detached. -/
def bsReparse (n : HNode) : HNode :=
  match n with
  | .elem i "html" a cs => .elem i "html" a cs
  | other => .elem 0 "html" [] [.elem 0 "body" [] [other]]

/-- The per-cleanup-selector loop body of _extract_element.  A CSS cleanup
selector decomposes matches through the working element: for a soup
reference that destroys nodes of the shared soup; for a detached copy it
only rewrites the copy.  An XPath cleanup selector always serializes the
current element, reparses it with lxml, removes the matches from that fresh
tree and reparses the result with BeautifulSoup, leaving the working element
detached.  Query parse failures are caught and ignored (the except branch
around each cleanup selector). -/
def applyCleanupSel (st : PState) (el : WElem) (cs : String) : WElem × PState :=
  match detectSelectorType cs .auto with
  | .xpath =>
    match xpathParse cs with
    | .error _ => (el, st)
    | .ok sel =>
      match currentNode st el with
      | none => (el, st)
      | some n => (.detached (bsReparse (removeMatchingBy (tagIs sel.tag) n)), st)
  | _ =>
    match cssParse cs with
    | .error _ => (el, st)
    | .ok sel =>
      match el with
      | .soupRef i =>
        (el, { st with soup := modifyById (removeMatchingBy (cssMatches sel)) i st.soup })
      | .detached n => (.detached (removeMatchingBy (cssMatches sel) n), st)
      | .treeRef i => (.treeRef i, st)

/-- Folds the per-field cleanup selectors over one working element. -/
def applyCleanupList (st : PState) (el : WElem) : List String → WElem × PState
  | [] => (el, st)
  | cs :: rest =>
    let p := applyCleanupSel st el cs
    applyCleanupList p.2 p.1 rest

/-- The per-matched-element body of the result loop of _extract_element:
when the field has cleanup selectors an lxml element is first converted to a
detached BeautifulSoup copy (serialize, reparse, find), then every cleanup
selector is applied; finally the value is extracted with the per-item
attribute overriding the selector-level one.  Returns the extracted value
(None models both a falsy value and a caught extraction error) and the
possibly mutated parser state. -/
def processElement (st : PState) (sel : ElementSelector) (baseUrl : Option String)
    (e : WElem × Option String × Bool) : Option String × PState :=
  let el0 := e.1
  let spAttr := e.2.1
  let isLxml0 := e.2.2
  let start : WElem :=
    if sel.cleanup.isEmpty then el0
    else if isLxml0 then
      match currentNode st el0 with
      | some n => .detached (bsReparse n)
      | none => el0
    else el0
  let cleaned :=
    if sel.cleanup.isEmpty then (el0, st)
    else applyCleanupList st start sel.cleanup
  let isLxml1 := isLxml0 && sel.cleanup.isEmpty
  let attrToExtract := pyOr spAttr sel.attrName
  let value :=
    match currentNode cleaned.2 cleaned.1 with
    | some n => extractValueFromElement baseUrl n attrToExtract sel.type isLxml1
    | none => none
  (value, cleaned.2)

/-- The result accumulation loop of _extract_element: every element is
cleaned up and extracted against the state left by its predecessors, and
only truthy values are appended to results. -/
def processElements (baseUrl : Option String) (sel : ElementSelector) :
    List (WElem × Option String × Bool) → PState → List String × PState
  | [], st => ([], st)
  | e :: es, st =>
    let p := processElement st sel baseUrl e
    let rest := processElements baseUrl sel es p.2
    match p.1 with
    | some s => if !s.isEmpty then (s :: rest.1, rest.2) else rest
    | none => rest

/-- The query, selector_type, attribute and parent read out of one fallback
item at the top of the selector loop (string shorthand: auto type, no
attribute, no parent). -/
def itemFields : SelItem → Option String × SelectorType × Option String × Option String
  | .str q => (some q, .auto, none, none)
  | .dict q t a p => (q, t, a, p)

/-- The try-block of the selector loop of _extract_element for one item:
detect the type, resolve the parent scope if configured (a missing parent
continues the chain, modelled as zero matches), run the matching engine
(rewriting an XPath query to a relative form under a parent scope), and tag
every matched element with the item attribute and the engine flag.  A raised
selector-syntax error surfaces as Except.error. -/
def runItemBody (st : PState) (all : Bool) (q : String) (t : SelectorType)
    (attrName : Option String) (par : Option String) :
    Except String (List (WElem × Option String × Bool)) := do
  let detected := detectSelectorType q t
  let parentEl : Option HNode ←
    match par with
    | some pq => findParentElement st pq detected
    | none => pure none
  if par.isSome && parentEl.isNone then
    pure []
  else if detected = .css then do
    let els ← extractWithCss st.soup q parentEl all
    pure (els.filterMap (fun e => (elemId e).map (fun i => (WElem.soupRef i, attrName, false))))
  else
    let q2 :=
      if parentEl.isSome then
        if startsWithStr q "." then q
        else if startsWithStr q "/" then "." ++ q
        else ".//" ++ q
      else q
    let els := extractWithXpath st.tree q2 parentEl all
    pure (els.filterMap (fun e => (elemId e).map (fun i => (WElem.treeRef i, attrName, true))))

/-- Outcome of one iteration of the selector loop: continue to the next item
or break with the matched elements. -/
inductive ItemOutcome where
  | skip
  | matched (els : List (WElem × Option String × Bool))

/-- One full iteration of the selector loop of _extract_element: a falsy
query skips the item, a caught exception skips the item, zero matches skip
the item, one or more matches stop the fallback chain. -/
def runItem (st : PState) (all : Bool) (item : SelItem) : ItemOutcome :=
  let f := itemFields item
  match f.1 with
  | none => .skip
  | some q =>
    if q.isEmpty then .skip
    else
      match runItemBody st all q f.2.1 f.2.2.1 f.2.2.2 with
      | .error _ => .skip
      | .ok [] => .skip
      | .ok els => .matched els

/-- The fallback chain: items are tried in order and the first item with a
non-empty match set wins (the break in _extract_element). -/
def chainFind (st : PState) (all : Bool) : List SelItem → Option (List (WElem × Option String × Bool))
  | [] => none
  | item :: rest =>
    match runItem st all item with
    | .skip => chainFind st all rest
    | .matched els => some els

/-- ElementSelector.selector normalized to a list
(`selector.selector if isinstance(..., list) else [selector.selector]`). -/
def normalizeSelector : SelectorVal → List SelItem
  | .one q => [.str q]
  | .many items => items

/-- Python falsiness of the selector value (`if not selector.selector`). -/
def selectorFalsy : SelectorVal → Bool
  | .one q => q.isEmpty
  | .many items => items.isEmpty

/-- A value of the mapping returned by parse: a single string or a list. -/
inductive ParsedValue where
  | str (s : String)
  | list (l : List String)

/-- mirrors BaseParser._extract_element end to end: normalize the selector,
walk the fallback chain, clean up and extract each matched element, drop
falsy values, and return None, the list (all True) or the first value. -/
def extractElement (st : PState) (baseUrl : Option String) (sel : ElementSelector) :
    Option ParsedValue × PState :=
  if selectorFalsy sel.selector then (none, st)
  else
    match chainFind st sel.all (normalizeSelector sel.selector) with
    | none => (none, st)
    | some els =>
      let r := processElements baseUrl sel els st
      if r.1.isEmpty then (none, r.2)
      else if sel.all then (some (.list r.1), r.2)
      else (some (.str (r.1.headD "")), r.2)

/-- models ParserConfig (models/selector.py and models/selector_old.py share
this field layout): the domain metadata, one optional ElementSelector per
field slot with content mandatory, the global cleanup selectors and the
discovery lists. -/
structure ParserConfig where
  domain : String
  lang : String := "en"
  type : String := "article"
  title : Option ElementSelector := none
  description : Option ElementSelector := none
  content : ElementSelector
  authors : Option ElementSelector := none
  date_published : Option ElementSelector := none
  date_modified : Option ElementSelector := none
  tags : Option ElementSelector := none
  topics : Option ElementSelector := none
  follow_urls : Option ElementSelector := none
  cleanup : List String := []
  sitemaps : List String := []
  rss_feeds : List String := []

/-- The declaration order of ParserConfig.model_fields (pydantic preserves
the order in which the fields are declared in the class body). -/
def parserConfigModelFields : List String :=
  ["domain", "lang", "type", "title", "description", "content", "authors",
   "date_published", "date_modified", "tags", "topics", "follow_urls",
   "cleanup", "sitemaps", "rss_feeds"]

/-- getattr(config, field) filtered by isinstance(..., ElementSelector): the
string and list valued fields of the model yield no selector. -/
def getFieldSelector (cfg : ParserConfig) : String → Option ElementSelector
  | "title" => cfg.title
  | "description" => cfg.description
  | "content" => some cfg.content
  | "authors" => cfg.authors
  | "date_published" => cfg.date_published
  | "date_modified" => cfg.date_modified
  | "tags" => cfg.tags
  | "topics" => cfg.topics
  | "follow_urls" => cfg.follow_urls
  | _ => none

/-- Python truthiness of an extracted value (`if value:` in parse). -/
def valueTruthy : ParsedValue → Bool
  | .str s => !s.isEmpty
  | .list l => !l.isEmpty

/-- The field loop of BaseParser.parse over an explicit field-name list:
"cleanup" is skipped, fields without a configured ElementSelector are
skipped, and only truthy extracted values are stored. -/
def parseFields (cfg : ParserConfig) (baseUrl : Option String) :
    List String → PState → List (String × ParsedValue) × PState
  | [], st => ([], st)
  | f :: fs, st =>
    if f = "cleanup" then parseFields cfg baseUrl fs st
    else
      match getFieldSelector cfg f with
      | none => parseFields cfg baseUrl fs st
      | some sel =>
        let p := extractElement st baseUrl sel
        let rest := parseFields cfg baseUrl fs p.2
        match p.1 with
        | some pv =>
          if valueTruthy pv then ((f, pv) :: rest.1, rest.2) else rest
        | none => rest

/-- mirrors BaseParser.parse: iterate ParserConfig.model_fields in
declaration order and collect the truthy extraction results. -/
def parse (cfg : ParserConfig) (baseUrl : Option String) (st : PState) :
    List (String × ParsedValue) × PState :=
  parseFields cfg baseUrl parserConfigModelFields st

/-- The sequence of field names on which parse invokes the element resolver:
the model fields in declaration order, minus "cleanup" and minus the fields
without a configured ElementSelector. -/
def evalOrder (cfg : ParserConfig) : List String :=
  parserConfigModelFields.filter (fun f => f ≠ "cleanup" && (getFieldSelector cfg f).isSome)

/-- One selector of BaseParser._run_cleanup (global cleanup): a CSS selector
decomposes its matches inside the shared soup (the lxml tree is not
refreshed); an XPath selector removes its matches from the lxml tree and
rebuilds the soup from the serialized tree.  Errors are caught and
ignored. -/
def runGlobalCleanupSel (st : PState) (cs : String) : PState :=
  match detectSelectorType cs .auto with
  | .xpath =>
    match st.tree with
    | none => st
    | some t =>
      match xpathParse cs with
      | .error _ => st
      | .ok sel =>
        let t2 := removeMatchingBy (tagIs sel.tag) t
        { soup := .elem 0 "[document]" [] [t2], tree := some t2 }
  | _ =>
    match cssParse cs with
    | .error _ => st
    | .ok sel => { st with soup := removeMatchingBy (cssMatches sel) st.soup }

/-- mirrors BaseParser._run_cleanup: fold the global cleanup selectors. -/
def runGlobalCleanup (st : PState) : List String → PState
  | [] => st
  | cs :: rest => runGlobalCleanup (runGlobalCleanupSel st cs) rest

/-- mirrors BaseParser.__init__ given an already parsed soup document: the
lxml tree is built from the serialized soup (modelled as the first element
child of the document node, a structural copy), then the global cleanup
runs. -/
def mkState (doc : HNode) (globalCleanup : List String) : PState :=
  let tree :=
    match doc with
    | .elem _ _ _ (c :: _) => some c
    | _ => none
  runGlobalCleanup { soup := doc, tree := tree } globalCleanup

/-- models/html.py BreakTag: the placeholder protecting a literal newline
until the final decode pass. -/
def BreakTag : String := "<\x7bbreak\x7d>"

/-- models/html.py TabTag: the placeholder protecting a literal tab. -/
def TabTag : String := "<\x7btab\x7d>"

/-- mirrors HTMLHelper.decode_tag: first every BreakTag becomes a newline,
then every TabTag becomes a tab. -/
def decodeTag (s : String) : String :=
  replaceStr (replaceStr s BreakTag "\n") TabTag "\t"

/-- Models html.unescape from the Python standard library on the five basic
entity references; the strings of this development contain no other
entities. -/
def unescape (s : String) : String :=
  replaceStr (replaceStr (replaceStr (replaceStr (replaceStr s "&lt;" "<")
    "&gt;" ">") "&quot;" "\"") "&#39;" "\x27") "&amp;" "&"

/-- Collapses every run of two or more space characters to a single space
(re.sub of one-or-more spaces with a single space). -/
def collapseSpacesAux : List Char → Bool → List Char
  | [], _ => []
  | c :: cs, prevSpace =>
    if c = ' ' then
      if prevSpace then collapseSpacesAux cs true
      else ' ' :: collapseSpacesAux cs true
    else c :: collapseSpacesAux cs false

/-- String wrapper of collapseSpacesAux. -/
def collapseSpaces (s : String) : String :=
  String.mk (collapseSpacesAux s.data false)

/-- mirrors Img._clean_dash: dashes are padded, the result stripped and
space runs collapsed. -/
def cleanDash (s : String) : String :=
  collapseSpaces (strip (replaceStr s "-" " - "))

/-- The attribute-key normalization of Img.src
(k.lower().strip().replace("-", "_")). -/
def normAttrKey (k : String) : String :=
  replaceStr (strip (toLowerStr k)) "-" "_"

/-- The attrs_lower dictionary lookup of Img.src: a Python dict
comprehension lets a later colliding key overwrite an earlier one, hence the
last matching attribute wins. -/
def attrsLowerGet (attrs : List (String × String)) (key : String) : Option String :=
  ((attrs.filter (fun kv => normAttrKey kv.1 = key)).getLast?).map (fun kv => kv.2)

/-- Img._safe_types. -/
def imgSafeTypes : List String := [".webp", ".jpg", ".png", ".jpeg"]

/-- Img._lazy_css_attrs. -/
def imgLazyCssAttrs : List String :=
  ["data-original", "data_original", "data-src", "srcset"]

/-- The lazy-attribute loop of Img.src: src_val is reassigned on every
iteration (even to a missing value) and the loop breaks at the first truthy
value starting with http; the value of the last iteration survives
otherwise. -/
def lazyScan (attrs : List (String × String)) : List String → Option String → Option String
  | [], cur => cur
  | k :: ks, _ =>
    let v := attrsLowerGet attrs (strip (toLowerStr (replaceStr k "-" "_")))
    if strTruthy v && startsWithStr (v.getD "") "http" then v
    else lazyScan attrs ks v

/-- mirrors the Img.src property: prefer a src attribute that starts with
http, otherwise scan the lazy-load attributes in priority order; the
resolved value is valid when it starts with http and contains one of the
safe image extensions, and is HTML-unescaped on return; anything else
resolves to the empty string. -/
def imgSrc (attrs : List (String × String)) : String :=
  let src0 := pyOrStr (lookupAttr attrs "src") ""
  let srcv :=
    if startsWithStr src0 "http" then src0
    else pyOrStr (lazyScan attrs imgLazyCssAttrs (some src0)) ""
  if startsWithStr srcv "http" &&
     imgSafeTypes.any (fun ext => containsSub (toLowerStr srcv) ext) then
    unescape srcv
  else ""

/-- mirrors the Img.title property. -/
def imgTitle (attrs : List (String × String)) : String :=
  cleanDash (pyOrStr (lookupAttr attrs "title") "")

/-- mirrors the Img.alt property. -/
def imgAlt (attrs : List (String × String)) : String :=
  cleanDash (pyOrStr (lookupAttr attrs "alt") "")

/-- mirrors Img.to_markdown: the prefix (two break tags) is always emitted;
a resolved src adds the image reference (full form, alt-only form, or bare
form) followed by the suffix break tag; without a resolved src only the
prefix is returned. -/
def imgToMarkdown (attrs : List (String × String)) : String :=
  let src := imgSrc attrs
  if !src.isEmpty then
    let t := imgTitle attrs
    let a := imgAlt attrs
    (if !t.isEmpty && !a.isEmpty then
      BreakTag ++ BreakTag ++ "![" ++ a ++ "](" ++ src ++ " \"" ++ t ++ "\")"
     else if !a.isEmpty then
      BreakTag ++ BreakTag ++ "![" ++ a ++ "](" ++ src ++ ")"
     else
      BreakTag ++ BreakTag ++ "![](" ++ src ++ ")") ++ BreakTag
  else BreakTag ++ BreakTag

/-- mirrors A.to_markdown: non-empty stripped text with a truthy href not
starting with javascript, / or # becomes a link (with a leading space);
otherwise the bare text; empty text yields nothing. -/
def aToMarkdown (attrs : List (String × String)) (txt : String) : String :=
  let text := strip txt
  if !text.isEmpty then
    match lookupAttr attrs "href" with
    | some href =>
      if !href.isEmpty &&
         !(startsWithStr href "javascript" || startsWithStr href "/" ||
           startsWithStr href "#") then
        " [" ++ text ++ "](" ++ href ++ ")"
      else text
    | none => text
  else ""

/-- The character list of BreakTag, for the LI regular expression. -/
def breakTagChars : List Char := BreakTag.data

/-- Consumes a maximal run of BreakTag occurrences at the head of the list,
returning the count and the remainder.  The fuel argument (initially the
list length) only serves termination; every step consumes at least one
character. -/
def consumeBreakTagsAux : Nat → List Char → Nat × List Char
  | 0, cs => (0, cs)
  | fuel + 1, cs =>
    if breakTagChars.isPrefixOf cs then
      let p := consumeBreakTagsAux fuel (cs.drop breakTagChars.length)
      (p.1 + 1, p.2)
    else (0, cs)

/-- Fuel wrapper of consumeBreakTagsAux. -/
def consumeBreakTags (cs : List Char) : Nat × List Char :=
  consumeBreakTagsAux cs.length cs

/-- mirrors the re.sub of LI.to_markdown: a leading dash followed by
whitespace, one or more break tags and more whitespace is rewritten to a
plain list-item prefix. -/
def liRegexApply (md : String) : String :=
  match md.data with
  | '-' :: rest =>
    if (rest.takeWhile Char.isWhitespace).isEmpty then md
    else
      let r1 := rest.dropWhile Char.isWhitespace
      let p := consumeBreakTags r1
      if p.1 = 0 then md
      else if (p.2.takeWhile Char.isWhitespace).isEmpty then md
      else String.mk ('-' :: ' ' :: p.2.dropWhile Char.isWhitespace)
  | _ => md

/-- mirrors LI.to_markdown after the default wrap: the regex rewrite
followed by strip. -/
def liCleanup (md : String) : String :=
  strip (liRegexApply md)

/-- The behavior of one entry of TAG_HELPER_MAP: a default
prefix-strip-suffix wrap or one of the overriding to_markdown
implementations. -/
inductive TagHelper where
  | wrap (pre suf : String)
  | anchor
  | image
  | lineBreak
  | listItem
  | ignore

/-- Modelled from the spec: the Style helper class referenced by the "style"
entry of TAG_HELPER_MAP is not present in the provided models/html.py (the
class list of that file is elided), so its behavior is taken from the spec,
which requires style elements to always produce empty output. -/
def styleHelper : TagHelper := .ignore

/-- mirrors TAG_HELPER_MAP of models/converter.py together with the prefix
and suffix constants of the helper classes in models/html.py; tags without
an entry have no helper and pass their converted children through. -/
def tagHelperMap : String → Option TagHelper
  | "p" => some (.wrap (BreakTag ++ BreakTag) (BreakTag ++ BreakTag))
  | "div" => some (.wrap BreakTag BreakTag)
  | "span" => some (.wrap " " " ")
  | "a" => some .anchor
  | "img" => some .image
  | "br" => some .lineBreak
  | "hr" => some (.wrap (BreakTag ++ "---" ++ BreakTag) "")
  | "h1" => some (.wrap (BreakTag ++ "# ") BreakTag)
  | "h2" => some (.wrap (BreakTag ++ "## ") BreakTag)
  | "h3" => some (.wrap (BreakTag ++ "### ") BreakTag)
  | "h4" => some (.wrap (BreakTag ++ "#### ") BreakTag)
  | "h5" => some (.wrap (BreakTag ++ "##### ") BreakTag)
  | "h6" => some (.wrap (BreakTag ++ "###### ") BreakTag)
  | "strong" => some (.wrap " **" "** ")
  | "b" => some (.wrap " **" "** ")
  | "em" => some (.wrap " _" "_ ")
  | "i" => some (.wrap " _" "_ ")
  | "u" => some (.wrap "" "")
  | "del" => some (.wrap "~" "~")
  | "s" => some (.wrap "~~" "~~")
  | "strike" => some (.wrap "~" "~")
  | "code" => some (.wrap (BreakTag ++ "```") ("```" ++ BreakTag))
  | "pre" => some (.wrap "```" "```")
  | "blockquote" => some (.wrap (BreakTag ++ "> ") "")
  | "ul" => some (.wrap BreakTag (BreakTag ++ BreakTag))
  | "ol" => some (.wrap "" (BreakTag ++ BreakTag))
  | "li" => some .listItem
  | "table" => some (.wrap BreakTag BreakTag)
  | "thead" => some (.wrap BreakTag "")
  | "tbody" => some (.wrap "" (BreakTag ++ BreakTag))
  | "tfoot" => some (.wrap "" "")
  | "tr" => some (.wrap (BreakTag ++ "| ") "")
  | "th" => some (.wrap " " " |")
  | "td" => some (.wrap " " " |")
  | "caption" => some (.wrap "" "")
  | "script" => some .ignore
  | "noscript" => some .ignore
  | "iframe" => some .ignore
  | "style" => some styleHelper
  | "head" => some (.wrap "" "")
  | _ => none

/-- Dispatch of one helper instance: the default to_markdown wraps the
stripped child text in prefix and suffix; the overriding classes implement
their own rules. -/
def applyHelper (h : TagHelper) (attrs : List (String × String)) (txt : String) : String :=
  match h with
  | .wrap pre suf => pre ++ strip txt ++ suf
  | .anchor => aToMarkdown attrs txt
  | .image => imgToMarkdown attrs
  | .lineBreak => BreakTag
  | .listItem => liCleanup ("- " ++ strip txt ++ BreakTag)
  | .ignore => ""

mutual

/-- mirrors MarkdownConverter.process_node: a string node is returned
verbatim, an element first converts its children (post-order) and then
applies the helper registered for its tag, or passes the child text through
when no helper is registered. -/
def processNode : HNode → String
  | .text s => s
  | .elem _ tag attrs cs =>
    let txt := processNodeList cs
    match tagHelperMap tag with
    | none => txt
    | some h => applyHelper h attrs txt

def processNodeList : List HNode → String
  | [] => ""
  | c :: cs => processNode c ++ processNodeList cs

end

/-- mirrors html_to_markdown of models/converter.py on an already parsed
fragment: convert the tree, decode the placeholder tags, and strip the
result. -/
def htmlToMarkdown (root : HNode) : String :=
  strip (decodeTag (processNode root))

/-- The non-emptiness shape asserted for parse results: a non-empty string,
or a non-empty list of non-empty strings. -/
def valueNonempty : ParsedValue → Prop
  | .str s => s ≠ ""
  | .list l => l ≠ [] ∧ ∀ s ∈ l, s ≠ ""

/-- Whether a working element is a live reference into the shared soup. -/
def isSoupRef : WElem → Prop
  | .soupRef _ => True
  | .treeRef _ => False
  | .detached _ => False

/-- Example document: an article body whose ad block (holding the tag link)
is nested inside the content subtree. -/
def exDocC1 : HNode :=
  .elem 0 "[document]" [] [
    .elem 1 "html" [] [
      .elem 2 "body" [] [
        .elem 3 "div" [("class", "content")] [
          .elem 4 "div" [("class", "ads")] [
            .elem 5 "a" [("class", "tag")] [.text "T"]],
          .elem 6 "p" [] [.text "Body"]]]]]

/-- Parser state over exDocC1, no global cleanup. -/
def exStC1 : PState := mkState exDocC1 []

/-- content field: html extraction of .content with per-field cleanup of
.ads. -/
def exContentSelC1 : ElementSelector :=
  { selector := .one ".content", type := .html, cleanup := [".ads"] }

/-- tags field: every a.tag as text. -/
def exTagsSelC1 : ElementSelector := { selector := .one "a.tag", all := true }

/-- Config with the two overlapping fields. -/
def exCfgC1 : ParserConfig :=
  { domain := "example.com", content := exContentSelC1, tags := some exTagsSelC1 }

/-- Example document for the cleanup-isolation claim: same overlap shape as
exDocC1 with its own identities. -/
def exDocC2 : HNode :=
  .elem 0 "[document]" [] [
    .elem 1 "html" [] [
      .elem 2 "body" [] [
        .elem 3 "div" [("class", "post")] [
          .elem 4 "div" [("class", "ads")] [.text "AD"],
          .elem 5 "p" [] [.text "Story"]]]]]

/-- Parser state over exDocC2. -/
def exStC2 : PState := mkState exDocC2 []

/-- A field whose CSS-matched element gets a CSS cleanup selector. -/
def exSelC2 : ElementSelector :=
  { selector := .one ".post", type := .html, cleanup := [".ads"] }

/-- Example document for the fallback chain: no .a element, one .b element,
two .c elements. -/
def exDocC3 : HNode :=
  .elem 0 "[document]" [] [
    .elem 1 "html" [] [
      .elem 2 "body" [] [
        .elem 3 "div" [("class", "b")] [.text "B1"],
        .elem 4 "div" [("class", "c")] [.text "C1"],
        .elem 5 "div" [("class", "c")] [.text "C2"]]]]

/-- Parser state over exDocC3. -/
def exStC3 : PState := mkState exDocC3 []

/-- The chain [A, B, C] with multiplicity all. -/
def exSelC3 : ElementSelector :=
  { selector := .many [.str ".a", .str ".b", .str ".c"], all := true }

/-- Example document for parent scoping: a nav link and a byline link. -/
def exDocC4 : HNode :=
  .elem 0 "[document]" [] [
    .elem 1 "html" [] [
      .elem 2 "body" [] [
        .elem 3 "nav" [] [.elem 4 "a" [("href", "/about")] [.text "About"]],
        .elem 5 "div" [("class", "byline")] [
          .elem 6 "a" [("href", "/u")] [.text "U"]]]]]

/-- Parser state over exDocC4. -/
def exStC4 : PState := mkState exDocC4 []

/-- An auto-detected XPath child query scoped by a CSS parent string. -/
def exSelC4 : ElementSelector :=
  { selector := .many [.dict (some "//a") .auto none (some ".byline")] }

/-- Example document for the opposite mixture: an explicit-CSS child query
scoped by an XPath parent string. -/
def exDocC4b : HNode :=
  .elem 0 "[document]" [] [
    .elem 1 "html" [] [
      .elem 2 "body" [] [
        .elem 3 "div" [("class", "post-meta")] [
          .elem 4 "a" [("href", "/author")] [.text "J"]]]]]

/-- Parser state over exDocC4b. -/
def exStC4b : PState := mkState exDocC4b []

/-- The mixed item documented in the ElementSelector docstring. -/
def exSelC4b : ElementSelector :=
  { selector := .many [.dict (some "a") .css none (some "//div")] }

/-- Example fragment for script suppression. -/
def exDocC6 : HNode :=
  .elem 0 "[document]" [] [
    .elem 1 "html" [] [
      .elem 2 "body" [] [
        .elem 3 "div" [] [
          .elem 4 "script" [] [.text "x()"],
          .text "Hello"]]]]

/-- Example fragment: img with an unsafe src. -/
def exDocC7u : HNode :=
  .elem 0 "[document]" [] [
    .elem 1 "html" [] [
      .elem 2 "body" [] [
        .elem 3 "img" [("src", "javascript:alert(1)")] []]]]

/-- Example fragment: img with a safe src and an alt. -/
def exDocC7s : HNode :=
  .elem 0 "[document]" [] [
    .elem 1 "html" [] [
      .elem 2 "body" [] [
        .elem 3 "img" [("src", "https://x.com/a.jpg"), ("alt", "A")] []]]]

/-- Example fragment with two sibling paragraphs (their prefixes and
suffixes meet in the middle). -/
def exDocC8 : HNode :=
  .elem 0 "[document]" [] [
    .elem 1 "html" [] [
      .elem 2 "body" [] [
        .elem 3 "div" [] [
          .elem 4 "p" [] [.text "a"],
          .elem 5 "p" [] [.text "b"]]]]]

/-- Example fragment with leading raw whitespace and a heading. -/
def exDocC8b : HNode :=
  .elem 0 "[document]" [] [
    .elem 1 "html" [] [
      .elem 2 "body" [] [
        .text "  ",
        .elem 3 "h1" [] [.text "T"]]]]

/-- A time element carrying a datetime attribute. -/
def exElemC9 : HNode := .elem 0 "time" [("datetime", "2024-01-15")] []

/-- A time element without the datetime attribute but with text content. -/
def exElemC9b : HNode := .elem 0 "time" [] [.text "January 2024"]

/-- Example document for the non-emptiness invariant. -/
def exDocC10 : HNode :=
  .elem 0 "[document]" [] [
    .elem 1 "html" [] [
      .elem 2 "body" [] [
        .elem 3 "div" [("class", "content")] [.text "Body"]]]]

/-- Parser state over exDocC10. -/
def exStC10 : PState := mkState exDocC10 []

/-- Config with a single text content field. -/
def exCfgC10 : ParserConfig :=
  { domain := "example.org", content := { selector := .one ".content" } }

/- Helper lemmas about the fallback chain. -/

theorem chainFind_append_of_some (st : PState) (all : Bool) (xs ys : List SelItem)
    (r : List (WElem × Option String × Bool)) (h : chainFind st all xs = some r) :
    chainFind st all (xs ++ ys) = some r := by
  induction xs with
  | nil => simp [chainFind] at h
  | cons a as ih =>
    simp only [List.cons_append, chainFind] at h ⊢
    cases hr : runItem st all a with
    | skip => simp only [hr] at h ⊢; exact ih h
    | matched els => simp only [hr] at h ⊢; exact h

theorem chainFind_skip (st : PState) (all : Bool) (it : SelItem)
    (h : runItem st all it = .skip) (xs ys : List SelItem) :
    chainFind st all (xs ++ it :: ys) = chainFind st all (xs ++ ys) := by
  induction xs with
  | nil => simp only [List.nil_append, chainFind, h]
  | cons a as ih =>
    simp only [List.cons_append, chainFind]
    cases hr : runItem st all a with
    | skip => exact ih
    | matched els => rfl

theorem extractElement_none_of_chain_none (st : PState) (bu : Option String)
    (sel : ElementSelector)
    (h : chainFind st sel.all (normalizeSelector sel.selector) = none) :
    extractElement st bu sel = (none, st) := by
  unfold extractElement
  cases hf : selectorFalsy sel.selector
  · simp [hf, h]
  · simp [hf]

/-- C3: the fallback chain is first-success-wins: a successful prefix fixes
the result no matter which QuerySpecs follow (so with [A, B, C], once B has
a match C is never attempted), uniformly in the multiplicity flag; on the
concrete chain [.a, .b, .c] with all true, where .a has zero matches, .b one
and .c two, the resolver returns only the value matched by .b. -/
theorem C3_fallback_first_success :
    (∀ (st : PState) (all : Bool) (xs ys : List SelItem)
       (r : List (WElem × Option String × Bool)),
       chainFind st all xs = some r → chainFind st all (xs ++ ys) = some r)
    ∧ (extractElement exStC3 none exSelC3).1 = some (.list ["B1"])
    ∧ (∀ c : SelItem, chainFind exStC3 true ([.str ".a", .str ".b"] ++ [c]) =
        chainFind exStC3 true [.str ".a", .str ".b"]) := by
  refine ⟨chainFind_append_of_some, rfl, ?_⟩
  intro c
  have h : chainFind exStC3 true [.str ".a", .str ".b"] =
      some [(WElem.soupRef 3, none, false)] := rfl
  rw [chainFind_append_of_some exStC3 true _ [c] _ h, h]

/-- Witness for C3: the general first-success conjunct applied to the
concrete successful prefix [.b] with the tail [.c]. -/
theorem C3_fallback_first_success_witness :
    chainFind exStC3 true ([SelItem.str ".b"] ++ [SelItem.str ".c"]) =
      some [(WElem.soupRef 3, none, false)] :=
  C3_fallback_first_success.1 exStC3 true [SelItem.str ".b"] [SelItem.str ".c"]
    [(WElem.soupRef 3, none, false)] rfl

/- Helper lemmas about error handling in the chain. -/

theorem extractWithCss_error (soup : HNode) (q : String) (p : Option HNode) (a : Bool)
    (e : String) (h : cssParse q = .error e) : extractWithCss soup q p a = .error e := by
  simp [extractWithCss, h, Bind.bind, Except.bind]

theorem runItem_skip_of_body_error (st : PState) (all : Bool) (q : String)
    (t : SelectorType) (an par : Option String)
    (h : (∃ e, runItemBody st all q t an par = .error e) ∨
      runItemBody st all q t an par = .ok []) :
    runItem st all (.dict (some q) t an par) = .skip := by
  by_cases hq : q.isEmpty
  · simp [runItem, itemFields, hq]
  · simp only [runItem, itemFields]
    rw [if_neg (by simp [hq])]
    rcases h with ⟨e, he⟩ | he <;> rw [he]

theorem runItemBody_of_css_error (st : PState) (all : Bool) (q : String)
    (t : SelectorType) (an par : Option String) (e : String)
    (hd : detectSelectorType q t = .css) (he : cssParse q = .error e) :
    (∃ e2, runItemBody st all q t an par = .error e2) ∨
      runItemBody st all q t an par = .ok [] := by
  unfold runItemBody
  rw [hd]
  cases par with
  | none =>
    left
    exact ⟨e, by simp [Bind.bind, Except.bind, Pure.pure, Except.pure,
      extractWithCss_error _ _ _ _ _ he]⟩
  | some pq =>
    cases hp : findParentElement st pq .css with
    | error e2 => left; exact ⟨e2, by simp [Bind.bind, Except.bind, hp]⟩
    | ok popt =>
      cases popt with
      | none => right; simp [Bind.bind, Except.bind, hp, Pure.pure, Except.pure]
      | some pe =>
        left
        exact ⟨e, by simp [Bind.bind, Except.bind, hp, Pure.pure, Except.pure,
          extractWithCss_error _ _ _ _ _ he]⟩

theorem runItemBody_of_xpath_error (st : PState) (all : Bool) (q : String)
    (t : SelectorType) (an : Option String) (e : String)
    (hd : detectSelectorType q t = .xpath) (he : xpathParse q = .error e) :
    runItemBody st all q t an none = .ok [] := by
  unfold runItemBody
  rw [hd]
  cases ht : st.tree with
  | none =>
    simp [Bind.bind, Except.bind, Pure.pure, Except.pure, extractWithXpath, ht]
  | some tr =>
    simp [Bind.bind, Except.bind, Pure.pure, Except.pure, extractWithXpath, ht, he]

/-- C5: a syntactically invalid CSS or XPath query string in a QuerySpec
never escapes the resolver: the item is skipped, skipped items leave the
fallback chain result unchanged (the chain proceeds), and a chain with no
matching QuerySpec resolves to None with the state untouched (parse then
stores nothing for the field). -/
theorem C5_selector_errors_not_fatal :
    (∀ (st : PState) (all : Bool) (q : String) (t : SelectorType)
       (an par : Option String) (e : String),
       detectSelectorType q t = .css → cssParse q = .error e →
       runItem st all (.dict (some q) t an par) = .skip)
    ∧ (∀ (st : PState) (all : Bool) (q : String) (t : SelectorType)
       (an : Option String) (e : String),
       detectSelectorType q t = .xpath → xpathParse q = .error e →
       runItem st all (.dict (some q) t an none) = .skip)
    ∧ (∀ (st : PState) (all : Bool) (it : SelItem), runItem st all it = .skip →
       ∀ (xs ys : List SelItem),
        chainFind st all (xs ++ it :: ys) = chainFind st all (xs ++ ys))
    ∧ (∀ (st : PState) (bu : Option String) (sel : ElementSelector),
       chainFind st sel.all (normalizeSelector sel.selector) = none →
       extractElement st bu sel = (none, st)) := by
  refine ⟨?_, ?_, ?_, extractElement_none_of_chain_none⟩
  · intro st all q t an par e hd he
    exact runItem_skip_of_body_error st all q t an par
      (runItemBody_of_css_error st all q t an par e hd he)
  · intro st all q t an e hd he
    exact runItem_skip_of_body_error st all q t an none
      (Or.inr (runItemBody_of_xpath_error st all q t an e hd he))
  · intro st all it h xs ys
    exact chainFind_skip st all it h xs ys

/-- Witness for C5: the invalid CSS string "[[[" and the invalid XPath
string "//" are skipped on a concrete state, the skip leaves the concrete
chain result unchanged, and a fully failing chain yields None. -/
theorem C5_selector_errors_not_fatal_witness :
    runItem exStC3 false (.dict (some "[[[") .auto none none) = .skip
    ∧ runItem exStC3 false (.dict (some "//") .xpath none none) = .skip
    ∧ chainFind exStC3 false ([] ++ SelItem.dict (some "[[[") .auto none none :: [SelItem.str ".b"]) =
        chainFind exStC3 false ([] ++ [SelItem.str ".b"])
    ∧ extractElement exStC3 none { selector := .one ".missing" } = (none, exStC3) := by
  have h1 := C5_selector_errors_not_fatal.1 exStC3 false "[[[" .auto none none
    "invalid css selector" rfl rfl
  have h2 := C5_selector_errors_not_fatal.2.1 exStC3 false "//" .xpath none
    "invalid xpath" rfl rfl
  refine ⟨h1, h2, ?_, ?_⟩
  · exact C5_selector_errors_not_fatal.2.2.1 exStC3 false _ h1 [] [SelItem.str ".b"]
  · exact C5_selector_errors_not_fatal.2.2.2 exStC3 none _ rfl

/- Helper lemmas about state (non-)mutation during per-field cleanup. -/

theorem applyCleanupSel_state_pres (st : PState) (el : WElem) (cs : String)
    (h : ¬ isSoupRef el) :
    (applyCleanupSel st el cs).2 = st ∧ ¬ isSoupRef (applyCleanupSel st el cs).1 := by
  cases el with
  | soupRef i => simp [isSoupRef] at h
  | treeRef i =>
    unfold applyCleanupSel
    split
    · split
      · exact ⟨rfl, h⟩
      · split
        · exact ⟨rfl, h⟩
        · exact ⟨rfl, by simp [isSoupRef]⟩
    · split
      · exact ⟨rfl, h⟩
      · exact ⟨rfl, h⟩
  | detached n =>
    unfold applyCleanupSel
    split
    · split
      · exact ⟨rfl, h⟩
      · split
        · exact ⟨rfl, h⟩
        · exact ⟨rfl, by simp [isSoupRef]⟩
    · split
      · exact ⟨rfl, h⟩
      · exact ⟨rfl, by simp [isSoupRef]⟩

theorem applyCleanupList_state_pres :
    ∀ (l : List String) (st : PState) (el : WElem), ¬ isSoupRef el →
      (applyCleanupList st el l).2 = st ∧ ¬ isSoupRef (applyCleanupList st el l).1 := by
  intro l
  induction l with
  | nil => intro st el h; exact ⟨rfl, h⟩
  | cons cs rest ih =>
    intro st el h
    simp only [applyCleanupList]
    have h1 := applyCleanupSel_state_pres st el cs h
    have h2 := ih (applyCleanupSel st el cs).2 (applyCleanupSel st el cs).1 h1.2
    exact ⟨h2.1.trans h1.1, h2.2⟩

theorem processElement_state_pres (st : PState) (sel : ElementSelector)
    (bu : Option String) (e : WElem × Option String × Bool)
    (h : ¬ isSoupRef e.1) : (processElement st sel bu e).2 = st := by
  unfold processElement
  by_cases hc : sel.cleanup.isEmpty
  · simp [hc]
  · simp only [hc, Bool.false_eq_true, if_false, if_neg]
    by_cases hl : e.2.2
    · simp only [hl, if_true]
      cases hcur : currentNode st e.1 with
      | none =>
        exact (applyCleanupList_state_pres sel.cleanup st e.1 h).1
      | some n =>
        exact (applyCleanupList_state_pres sel.cleanup st (.detached (bsReparse n))
          (by simp [isSoupRef])).1
    · simp only [hl, Bool.false_eq_true, if_false]
      exact (applyCleanupList_state_pres sel.cleanup st e.1 h).1

theorem processElement_state_noclean (st : PState) (sel : ElementSelector)
    (bu : Option String) (e : WElem × Option String × Bool)
    (h : sel.cleanup = []) : (processElement st sel bu e).2 = st := by
  simp [processElement, h]

theorem processElements_state_pres (bu : Option String) (sel : ElementSelector) :
    ∀ (els : List (WElem × Option String × Bool)) (st : PState),
      (∀ p ∈ els, ¬ isSoupRef p.1) → (processElements bu sel els st).2 = st := by
  intro els
  induction els with
  | nil => intro st _; rfl
  | cons e es ih =>
    intro st h
    have h1 := processElement_state_pres st sel bu e (h e (by simp))
    have h2 := ih (processElement st sel bu e).2 (fun p hp => h p (by simp [hp]))
    simp only [processElements]
    cases hp : (processElement st sel bu e).1 with
    | none => simp [hp, h2.trans h1]
    | some s =>
      by_cases hs : s.isEmpty <;> simp [hp, hs, h2.trans h1]

theorem processElements_state_noclean (bu : Option String) (sel : ElementSelector)
    (h : sel.cleanup = []) :
    ∀ (els : List (WElem × Option String × Bool)) (st : PState),
      (processElements bu sel els st).2 = st := by
  intro els
  induction els with
  | nil => intro st; rfl
  | cons e es ih =>
    intro st
    have h1 := processElement_state_noclean st sel bu e h
    have h2 := ih (processElement st sel bu e).2
    simp only [processElements]
    cases hp : (processElement st sel bu e).1 with
    | none => simp [hp, h2.trans h1]
    | some s =>
      by_cases hs : s.isEmpty <;> simp [hp, hs, h2.trans h1]

theorem extractElement_state_noclean (st : PState) (bu : Option String)
    (sel : ElementSelector) (h : sel.cleanup = []) :
    (extractElement st bu sel).2 = st := by
  unfold extractElement
  by_cases hf : selectorFalsy sel.selector
  · simp [hf]
  · simp only [hf, Bool.false_eq_true, if_false, if_neg]
    cases hc : chainFind st sel.all (normalizeSelector sel.selector) with
    | none => rfl
    | some els =>
      have h2 := processElements_state_noclean bu sel h els st
      by_cases hr : (processElements bu sel els st).1.isEmpty
      · simp [hr, h2]
      · by_cases ha : sel.all <;> simp [hr, ha, h2]

/-- C2 (amended): per-field cleanup leaves the shared parser state untouched
whenever the field has no cleanup selectors, and whenever the matched
elements are not live references into the shared soup (XPath matches are
converted to detached copies before cleanup, and XPath cleanup selectors
work on serialized copies); the CSS-matched, CSS-cleanup combination is the
one that mutates the shared soup, as the counterexample shows. -/
theorem C2_cleanup_copy_scope :
    (∀ (st : PState) (bu : Option String) (sel : ElementSelector)
       (els : List (WElem × Option String × Bool)), sel.cleanup = [] →
       (processElements bu sel els st).2 = st)
    ∧ (∀ (st : PState) (bu : Option String) (sel : ElementSelector)
       (els : List (WElem × Option String × Bool)),
       (∀ p ∈ els, ¬ isSoupRef p.1) → (processElements bu sel els st).2 = st)
    ∧ (∀ (st : PState) (bu : Option String) (sel : ElementSelector),
       sel.cleanup = [] → (extractElement st bu sel).2 = st) := by
  exact ⟨fun st bu sel els h => processElements_state_noclean bu sel h els st,
    fun st bu sel els h => processElements_state_pres bu sel els st h,
    fun st bu sel h => extractElement_state_noclean st bu sel h⟩

/-- Counterexample to C2 as stated: resolving a CSS-matched field whose
cleanup removes .ads decomposes the ad block inside the shared soup itself;
the original DOM is changed, not a copy. -/
theorem C2_cleanup_mutates_shared_soup :
    serialize (extractElement exStC2 none exSelC2).2.soup =
      "<[document]><html><body><div class=\"post\"><p>Story</p></div></body></html></[document]>"
    ∧ serialize exStC2.soup =
      "<[document]><html><body><div class=\"post\"><div class=\"ads\">AD</div><p>Story</p></div></body></html></[document]>"
    ∧ (extractElement exStC2 none exSelC2).2.soup ≠ exStC2.soup := by
  refine ⟨rfl, rfl, fun h => ?_⟩
  have h1 := congrArg serialize h
  exact absurd h1 (by decide)

/-- Witness for C2 (amended): the non-mutation conjuncts applied to a
concrete lxml-matched element list and to a concrete cleanup-free field. -/
theorem C2_cleanup_copy_scope_witness :
    (processElements none exSelC2 [(WElem.treeRef 3, none, true)] exStC2).2 = exStC2
    ∧ (extractElement exStC2 none { selector := .one ".post", type := .html }).2 = exStC2 := by
  constructor
  · refine C2_cleanup_copy_scope.2.1 exStC2 none exSelC2 [(WElem.treeRef 3, none, true)] ?_
    intro p hp
    simp only [List.mem_singleton] at hp
    rw [hp]
    simp [isSoupRef]
  · exact C2_cleanup_copy_scope.2.2 exStC2 none _ rfl

/- Helper lemmas about the parse field loop. -/

theorem parseFields_keys_sublist (cfg : ParserConfig) (bu : Option String) :
    ∀ (fs : List String) (st : PState),
      ((parseFields cfg bu fs st).1.map Prod.fst).Sublist
        (fs.filter (fun f => f ≠ "cleanup" && (getFieldSelector cfg f).isSome)) := by
  intro fs
  induction fs with
  | nil => intro st; simp [parseFields]
  | cons f0 fs ih =>
    intro st
    by_cases hcl : f0 = "cleanup"
    · subst hcl
      simp only [parseFields, if_pos rfl]
      simpa using ih st
    · simp only [parseFields, if_neg hcl]
      cases hsel : getFieldSelector cfg f0 with
      | none =>
        have hpred : (f0 ≠ "cleanup" && (getFieldSelector cfg f0).isSome) = false := by
          simp [hsel]
        simp only [List.filter_cons, hpred]
        exact ih st
      | some sel =>
        have hpred : (f0 ≠ "cleanup" && (getFieldSelector cfg f0).isSome) = true := by
          simp [hcl, hsel]
        simp only [List.filter_cons, hpred]
        cases hp : (extractElement st bu sel).1 with
        | none =>
          simp only [hp]
          exact (ih _).cons f0
        | some pv =>
          by_cases ht : valueTruthy pv
          · simp only [hp, ht, if_pos, List.map_cons]
            exact (ih _).cons₂ f0
          · simp only [hp, if_neg ht]
            exact (ih _).cons f0

theorem processElements_values (bu : Option String) (sel : ElementSelector) :
    ∀ (els : List (WElem × Option String × Bool)) (st : PState) (s : String),
      s ∈ (processElements bu sel els st).1 → s ≠ "" := by
  intro els
  induction els with
  | nil => intro st s h; simp [processElements] at h
  | cons e es ih =>
    intro st s h
    simp only [processElements] at h
    cases hp : (processElement st sel bu e).1 with
    | none => rw [hp] at h; exact ih _ s h
    | some v =>
      rw [hp] at h
      by_cases hv : v.isEmpty
      · simp only [hv, Bool.not_true, Bool.false_eq_true, if_false] at h
        exact ih _ s h
      · simp only [hv, Bool.not_false, if_true, List.mem_cons] at h
        cases h with
        | inl he =>
          subst he
          intro hc
          subst hc
          exact hv rfl
        | inr he => exact ih _ s he

theorem extractElement_valueNonempty (st : PState) (bu : Option String)
    (sel : ElementSelector) (pv : ParsedValue) (st2 : PState)
    (h : extractElement st bu sel = (some pv, st2)) : valueNonempty pv := by
  unfold extractElement at h
  by_cases hf : selectorFalsy sel.selector
  · simp [hf] at h
  · simp only [hf, Bool.false_eq_true, if_false] at h
    cases hc : chainFind st sel.all (normalizeSelector sel.selector) with
    | none => rw [hc] at h; simp at h
    | some els =>
      rw [hc] at h
      by_cases hr : (processElements bu sel els st).1.isEmpty
      · simp [hr] at h
      · by_cases ha : sel.all
        · simp only [hr, Bool.false_eq_true, if_false, ha, if_true,
            Prod.mk.injEq, Option.some.injEq] at h
          rw [← h.1]
          refine ⟨by simpa using hr, ?_⟩
          intro s hs
          exact processElements_values bu sel els st s hs
        · simp only [hr, Bool.false_eq_true, if_false, ha, Prod.mk.injEq,
            Option.some.injEq] at h
          rw [← h.1]
          cases hl : (processElements bu sel els st).1 with
          | nil => rw [hl] at hr; simp at hr
          | cons a l =>
            simp only [hl, List.headD_cons]
            show a ≠ ""
            exact processElements_values bu sel els st a (by rw [hl]; simp)

theorem parseFields_values (cfg : ParserConfig) (bu : Option String) :
    ∀ (fs : List String) (st : PState) (f : String) (pv : ParsedValue),
      (f, pv) ∈ (parseFields cfg bu fs st).1 → valueNonempty pv := by
  intro fs
  induction fs with
  | nil => intro st f pv h; simp [parseFields] at h
  | cons f0 fs ih =>
    intro st f pv h
    by_cases hcl : f0 = "cleanup"
    · rw [parseFields, if_pos hcl] at h
      exact ih st f pv h
    · rw [parseFields, if_neg hcl] at h
      cases hsel : getFieldSelector cfg f0 with
      | none => rw [hsel] at h; exact ih _ f pv h
      | some sel =>
        rw [hsel] at h
        cases hp : (extractElement st bu sel).1 with
        | none =>
          simp only [hp] at h
          exact ih _ f pv h
        | some pv0 =>
          by_cases ht : valueTruthy pv0
          · simp only [hp, ht, if_pos, List.mem_cons] at h
            cases h with
            | inl he =>
              have hpv : pv = pv0 := (Prod.mk.injEq _ _ _ _ ▸ he).2
              subst hpv
              refine extractElement_valueNonempty st bu sel pv
                (extractElement st bu sel).2 ?_
              rw [← hp]
            | inr he => exact ih _ f pv he
          · simp only [hp, if_neg ht] at h
            exact ih _ f pv h

/-- C10: every value stored by parse is a non-empty string or a non-empty
list of non-empty strings: elements whose extracted value is empty are
dropped, a field whose surviving values are all empty resolves to None, and
falsy results are never stored in the mapping. -/
theorem C10_parse_values_nonempty (cfg : ParserConfig) (bu : Option String)
    (st : PState) (f : String) (pv : ParsedValue)
    (h : (f, pv) ∈ (parse cfg bu st).1) : valueNonempty pv :=
  parseFields_values cfg bu parserConfigModelFields st f pv h

/-- Witness for C10: the invariant applied to the concrete parse of
exDocC10, whose content field extracts the non-empty string Body. -/
theorem C10_parse_values_nonempty_witness : valueNonempty (ParsedValue.str "Body") := by
  refine C10_parse_values_nonempty exCfgC10 none exStC10 "content"
    (ParsedValue.str "Body") ?_
  rw [show (parse exCfgC10 none exStC10).1 =
    [("content", ParsedValue.str "Body")] from rfl]
  exact List.Mem.head _

/-- Counterexample to C1: with a content field (html, cleanup .ads) and a
tags field whose links live inside the ad block of the content subtree,
parse evaluates content before tags (the declaration order of
ParserConfig.model_fields puts content third, not last), and the cleanup of
content removes the tag links from the shared soup before tags runs: the
returned mapping misses tags entirely, although tags resolves to ["T"] on
the untouched state. -/
theorem C1_content_not_evaluated_last :
    evalOrder exCfgC1 = ["content", "tags"]
    ∧ (parse exCfgC1 none exStC1).1 =
        [("content", ParsedValue.str "<div class=\"content\"><p>Body</p></div>")]
    ∧ (extractElement exStC1 none exTagsSelC1).1 = some (.list ["T"]) :=
  ⟨rfl, rfl, rfl⟩

/-- C1 (amended): parse evaluates the configured field slots in the
declaration order of ParserConfig.model_fields — title, description,
content, authors, date_published, date_modified, tags, topics, follow_urls
— so content is evaluated third among the slots, before the remaining six
metadata fields, and the keys of the returned mapping always appear in that
order. -/
theorem C1_field_evaluation_order :
    (∀ cfg : ParserConfig, evalOrder cfg =
      ["title", "description", "content", "authors", "date_published",
       "date_modified", "tags", "topics", "follow_urls"].filter
        (fun f => (getFieldSelector cfg f).isSome))
    ∧ (∀ (cfg : ParserConfig) (bu : Option String) (st : PState),
       ((parse cfg bu st).1.map Prod.fst).Sublist (evalOrder cfg)) := by
  constructor
  · intro cfg
    rfl
  · intro cfg bu st
    exact parseFields_keys_sublist cfg bu parserConfigModelFields st

theorem isEmpty_false_of_ne (s : String) (h : s ≠ "") : s.isEmpty = false := by
  cases hs : s.isEmpty
  · rfl
  · exact absurd ((String.isEmpty_iff s).mp hs) h

/-- Counterexample to C4: the detection rule applied to the parent string
".byline" itself yields CSS, but _find_parent_element receives the already
concrete type of the child query ("//a" auto-detects as XPath) and the
detector returns that explicit type unchanged, so the parent string runs on
the XPath engine, fails, and the QuerySpec is skipped — even though the
.byline parent exists and holds the link. -/
theorem C4_parent_type_counterexample :
    detectSelectorType ".byline" .auto = .css
    ∧ detectSelectorType ".byline" (detectSelectorType "//a" .auto) = .xpath
    ∧ (extractElement exStC4 none exSelC4).1 = none
    ∧ (selectOne exStC4.soup ⟨none, some "byline"⟩).isSome = true :=
  ⟨rfl, rfl, rfl, rfl⟩

/-- C4 (amended): the parent query is executed with the child QuerySpec
effective type, not with a type detected from the parent string: the
detector returns any non-auto explicit argument unchanged, and
_extract_element always passes the already detected child type to
_find_parent_element; consequently the mixed item documented for
SelectorConfig (CSS child inside an XPath parent) is skipped although the
XPath engine finds the parent. -/
theorem C4_parent_uses_child_type :
    (∀ (q : String) (t : SelectorType), t ≠ .auto → detectSelectorType q t = t)
    ∧ (extractElement exStC4b none exSelC4b).1 = none
    ∧ (extractWithXpath exStC4b.tree "//div" none false).isEmpty = false := by
  refine ⟨?_, rfl, rfl⟩
  intro q t h
  simp [detectSelectorType, h]

/-- Witness for C4 (amended): the detector keeps an explicit XPath type on a
CSS-looking parent string. -/
theorem C4_parent_uses_child_type_witness :
    detectSelectorType ".post" SelectorType.xpath = SelectorType.xpath :=
  C4_parent_uses_child_type.1 ".post" .xpath (by decide)

/-- C6: script, style, noscript and iframe elements always convert to the
empty string, whatever their attributes and children, and the script payload
is fully absent from the converted fragment. -/
theorem C6_script_style_suppressed :
    (∀ (i : Nat) (attrs : List (String × String)) (cs : List HNode),
      processNode (.elem i "script" attrs cs) = ""
      ∧ processNode (.elem i "style" attrs cs) = ""
      ∧ processNode (.elem i "noscript" attrs cs) = ""
      ∧ processNode (.elem i "iframe" attrs cs) = "")
    ∧ htmlToMarkdown exDocC6 = "Hello" :=
  ⟨fun _ _ _ => ⟨rfl, rfl, rfl, rfl⟩, rfl⟩

/-- Counterexample to C7: an img whose src does not resolve to a safe image
url does not contribute empty output to the conversion — its formatter still
emits the two break-tag markers of its prefix. -/
theorem C7_rejected_src_img_still_emits_markers :
    imgToMarkdown [("src", "javascript:alert(1)")] = BreakTag ++ BreakTag
    ∧ BreakTag ++ BreakTag ≠ ""
    ∧ processNode (.elem 3 "img" [("src", "javascript:alert(1)")] []) =
        BreakTag ++ BreakTag :=
  ⟨rfl, by decide, rfl⟩

/-- C7 (amended): the img formatter resolves src (a http src attribute wins,
else the lazy-load attributes in priority order), emits the image reference
in its full, alt-only or bare form depending on which of title and alt are
present, and emits only its break-tag prefix (no image reference) when no
safe src resolves — a fragment consisting of such an img alone therefore
renders as the empty string after the final trim, as the two claim examples
show. -/
theorem C7_img_markdown :
    (∀ attrs, imgSrc attrs = "" → imgToMarkdown attrs = BreakTag ++ BreakTag)
    ∧ (∀ attrs, imgSrc attrs ≠ "" → imgTitle attrs ≠ "" → imgAlt attrs ≠ "" →
        imgToMarkdown attrs =
          (BreakTag ++ BreakTag ++ "![" ++ imgAlt attrs ++ "](" ++ imgSrc attrs ++
            " \"" ++ imgTitle attrs ++ "\")") ++ BreakTag)
    ∧ (∀ attrs, imgSrc attrs ≠ "" → imgTitle attrs = "" → imgAlt attrs ≠ "" →
        imgToMarkdown attrs =
          (BreakTag ++ BreakTag ++ "![" ++ imgAlt attrs ++ "](" ++
            imgSrc attrs ++ ")") ++ BreakTag)
    ∧ (∀ attrs, imgSrc attrs ≠ "" → imgAlt attrs = "" →
        imgToMarkdown attrs =
          (BreakTag ++ BreakTag ++ "![](" ++ imgSrc attrs ++ ")") ++ BreakTag)
    ∧ htmlToMarkdown exDocC7u = ""
    ∧ htmlToMarkdown exDocC7s = "![A](https://x.com/a.jpg)"
    ∧ imgSrc [("data-src", "https://x.com/b.png"), ("data-original", "https://x.com/a.png")] =
        "https://x.com/a.png"
    ∧ imgSrc [("src", "https://x.com/s.jpg"), ("data-original", "https://x.com/a.png")] =
        "https://x.com/s.jpg" := by
  have hEmpty : ("" : String).isEmpty = true := rfl
  refine ⟨?_, ?_, ?_, ?_, rfl, rfl, rfl, rfl⟩
  · intro attrs h
    simp [imgToMarkdown, h, hEmpty]
  · intro attrs hs ht ha
    simp [imgToMarkdown, isEmpty_false_of_ne _ hs, isEmpty_false_of_ne _ ht,
      isEmpty_false_of_ne _ ha]
  · intro attrs hs ht ha
    simp [imgToMarkdown, isEmpty_false_of_ne _ hs, ht, isEmpty_false_of_ne _ ha, hEmpty]
  · intro attrs hs ha
    simp [imgToMarkdown, isEmpty_false_of_ne _ hs, ha, hEmpty]

/-- Witness for C7 (amended): the full degradation form at a concrete img
with title and alt, and the prefix-only form at a concrete img without a
resolvable src. -/
theorem C7_img_markdown_witness :
    imgToMarkdown [("src", "https://x.com/a.jpg"), ("alt", "A"), ("title", "B")] =
      (BreakTag ++ BreakTag ++ "![A](https://x.com/a.jpg \"B\")") ++ BreakTag
    ∧ imgToMarkdown [("src", "x.gif")] = BreakTag ++ BreakTag := by
  constructor
  · have h := C7_img_markdown.2.1 [("src", "https://x.com/a.jpg"), ("alt", "A"), ("title", "B")]
      (by decide) (by decide) (by decide)
    rw [h]
    rfl
  · exact C7_img_markdown.1 [("src", "x.gif")] rfl

/-- Counterexample to C8: converting two sibling paragraphs leaves four
consecutive newlines (three consecutive blank-line separators) in the
output: repeated blank lines are not collapsed. -/
theorem C8_blank_lines_not_collapsed :
    htmlToMarkdown exDocC8 = "a\n\n\n\nb"
    ∧ containsSub (htmlToMarkdown exDocC8) "\n\n\n" = true :=
  ⟨rfl, rfl⟩

/-- C8 (amended): the final pass of html_to_markdown decodes the break and
tab placeholder tokens and trims the surrounding whitespace of the result,
but performs no blank-line collapsing. -/
theorem C8_final_pass_decode_and_trim :
    htmlToMarkdown exDocC8b = "# T"
    ∧ decodeTag (BreakTag ++ "x" ++ TabTag) = "\nx\t"
    ∧ strip (htmlToMarkdown exDocC8) = htmlToMarkdown exDocC8 :=
  ⟨rfl, rfl, rfl⟩

/-- C9: when an attribute name is configured, extraction returns that
attribute and nothing else: the result does not depend on the declared
extraction type, an element without the attribute (or with an empty value)
contributes no value at all, and a present non-empty value is returned as
is (href joining aside). -/
theorem C9_attribute_overrides_type :
    ∀ (bu : Option String) (el : HNode) (a : String) (t : ExtractType) (lx : Bool),
      a ≠ "" →
      (extractValueFromElement bu el (some a) t lx =
        extractValueFromElement bu el (some a) .text lx)
      ∧ (lookupAttr (attrsOf el) a = none →
          extractValueFromElement bu el (some a) t lx = none)
      ∧ (lookupAttr (attrsOf el) a = some "" →
          extractValueFromElement bu el (some a) t lx = none)
      ∧ (∀ v, lookupAttr (attrsOf el) a = some v → v ≠ "" →
          (a ≠ "href" ∨ bu = none) →
          extractValueFromElement bu el (some a) t lx = some v) := by
  intro bu el a t lx ha
  have hta : strTruthy (some a) = true := by
    simp [strTruthy, isEmpty_false_of_ne a ha]
  refine ⟨?_, ?_, ?_, ?_⟩
  · simp only [extractValueFromElement, hta, if_true]
  · intro h
    simp [extractValueFromElement, hta, h]
  · intro h
    simp [extractValueFromElement, hta, h, show ("" : String).isEmpty = true from rfl]
  · intro v h hv hh
    simp only [extractValueFromElement, hta, if_true, h, Option.getD_some,
      isEmpty_false_of_ne v hv, Bool.not_false, if_true]
    cases hh with
    | inl hne => simp [hne]
    | inr hbu => simp [hbu]

/-- Witness for C9: a datetime attribute extracted from a time element even
under html extraction type, and no fallback to text when the attribute is
missing. -/
theorem C9_attribute_overrides_type_witness :
    extractValueFromElement none exElemC9 (some "datetime") .html false =
      some "2024-01-15"
    ∧ extractValueFromElement none exElemC9b (some "datetime") .text false = none := by
  constructor
  · exact (C9_attribute_overrides_type none exElemC9 "datetime" .html false
      (by decide)).2.2.2 "2024-01-15" rfl (by decide) (Or.inr rfl)
  · exact (C9_attribute_overrides_type none exElemC9b "datetime" .text false
      (by decide)).2.1 rfl

end LlmScraper
